import Mathlib

/-!
Verification of the natural-language specification of
`ovos-media-plugin-spotify` against a shallow embedding of its code.

The repository contains two generations of a Spotify playback plugin:
* `ovos_audio_plugin_spotify/` — the legacy audio-service generation;
* `ovos_media_plugin_spotify/` — the newer generation (OCP media backend in
  `__init__.py`, an audio-service backend in `audio.py`, the spotifyd event
  bridge in `spotifyd.py`, and the API client in `spotify_client.py`).

Wall-clock times, positions and durations are modelled as rationals (the
Python code uses floats; none of the verified properties depend on float
rounding).  Python `None` is modelled with `Option`, raised exceptions with
explicit result constructors.
-/

/-- A Spotify Connect device descriptor as returned by the Web API; the code
only reads the `id`, `name` and `type` fields in the functions modelled
here. -/
structure Device where
  id : String
  name : String
  type : String
deriving DecidableEq, Repr

/-- Result of `SpotifyClient.validate_device_id`
(`ovos_media_plugin_spotify/spotify_client.py:325-344`): either the resolved
device id is returned, or the call raises.  `attrError` models the Python
`AttributeError` raised by `dev_id.lower()` when `dev_id` is `None`;
`noDevices` models `NoSpotifyDevicesError`. -/
inductive DevResult where
  | ok (id : String)
  | attrError
  | noDevices
deriving DecidableEq, Repr

/-- Python `str.lower()`, charwise (the device names and types compared in the
code are plain ASCII, where this agrees with Python). -/
def lower (s : String) : String := ⟨s.data.map Char.toLower⟩

/-- `d["name"].lower() == dev_id.lower()` for one device-name (or device-type)
string `a` against the argument `dev_id`: evaluating `.lower()` on `None`
raises `AttributeError` (modelled as `Except.error ()`). -/
def lowerEq (a : String) (devId : Option String) : Except Unit Bool :=
  match devId with
  | none => .error ()
  | some s => .ok (lower a == lower s)

/-- The second loop of `validate_device_id`: scan the device list for the
first case-insensitive exact name match, returning its id; each iteration
evaluates `dev_id.lower()` and so raises on a `None` argument. -/
def nameScan (devices : List Device) (devId : Option String) : Except Unit (Option String) :=
  match devices with
  | [] => .ok none
  | d :: rest =>
    match lowerEq d.name devId with
    | .error e => .error e
    | .ok true => .ok (some d.id)
    | .ok false => nameScan rest devId

/-- The third loop of `validate_device_id`: scan the device list for the
first case-insensitive exact type match, returning its id; each iteration
evaluates `dev_id.lower()` and so raises on a `None` argument. -/
def typeScan (devices : List Device) (devId : Option String) : Except Unit (Option String) :=
  match devices with
  | [] => .ok none
  | d :: rest =>
    match lowerEq d.type devId with
    | .error e => .error e
    | .ok true => .ok (some d.id)
    | .ok false => typeScan rest devId

/-- `SpotifyClient.validate_device_id` of the newer generation
(`ovos_media_plugin_spotify/spotify_client.py:325-344`): the first loop looks
for an exact `d["id"] == dev_id` match and, when found, falls through to the
final `None` check with `dev_id` unchanged; otherwise the name loop and then
the type loop run, each rebinding `dev_id` to the matched device's id; finally
`NoSpotifyDevicesError` is raised only if the (possibly rebound) `dev_id` is
`None`, and the (possibly rebound) `dev_id` is returned otherwise. -/
def validate_device_id (devices : List Device) (devId : Option String) : DevResult :=
  let found := devices.any (fun d => devId == some d.id)
  if found then
    match devId with
    | some s => .ok s
    | none => .noDevices
  else
    match nameScan devices devId with
    | .error () => .attrError
    | .ok (some newId) => .ok newId
    | .ok none =>
      match typeScan devices devId with
      | .error () => .attrError
      | .ok (some newId) => .ok newId
      | .ok none =>
        match devId with
        | none => .noDevices
        | some s => .ok s

/-- The example device list used by the specification:
`[{id:"a",name:"Kitchen",type:"Speaker"}, {id:"b",name:"Office",type:"Computer"}]`. -/
def exampleDevices : List Device :=
  [⟨"a", "Kitchen", "Speaker"⟩, ⟨"b", "Office", "Computer"⟩]

theorem nameScan_some (devices : List Device) (s : String) :
    nameScan devices (some s) =
      .ok ((devices.find? (fun d => lower d.name == lower s)).map (fun d => d.id)) := by
  induction devices with
  | nil => rfl
  | cons d rest ih =>
      simp only [nameScan, lowerEq, List.find?]
      by_cases h : (lower d.name == lower s) = true
      · simp [h]
      · simp only [Bool.not_eq_true] at h
        simp [h, ih]

theorem typeScan_some (devices : List Device) (s : String) :
    typeScan devices (some s) =
      .ok ((devices.find? (fun d => lower d.type == lower s)).map (fun d => d.id)) := by
  induction devices with
  | nil => rfl
  | cons d rest ih =>
      simp only [typeScan, lowerEq, List.find?]
      by_cases h : (lower d.type == lower s) = true
      · simp [h]
      · simp only [Bool.not_eq_true] at h
        simp [h, ih]

theorem any_beq_none (devices : List Device) :
    (devices.any (fun d => (none : Option String) == some d.id)) = false := by
  induction devices with
  | nil => rfl
  | cons d rest ih =>
      simp only [List.any_cons, ih, Bool.or_false]
      rfl

/-- Claim C10: in the newer-generation client, resolving a device identifier
of `None` (as happens when `next`/`previous`/`pause`/`resume`/`volume` is
invoked without a device id, e.g. the media plugin's `lower_volume`, which
calls `SpotifyClient.volume` with no `dev_id`) never falls back to a default
device: with a non-empty device list the name loop evaluates `None.lower()`
and aborts with an `AttributeError`, and with an empty device list it raises
`NoSpotifyDevicesError`. -/
theorem validate_device_id_none_never_default (devices : List Device) :
    (devices = [] → validate_device_id devices none = DevResult.noDevices) ∧
    (devices ≠ [] → validate_device_id devices none = DevResult.attrError) := by
  constructor
  · rintro rfl
    rfl
  · intro h
    cases devices with
    | nil => exact absurd rfl h
    | cons d rest =>
        unfold validate_device_id
        rw [any_beq_none]
        rfl

/-- Closed witness for `validate_device_id_none_never_default`. -/
theorem validate_device_id_none_never_default_witness :
    validate_device_id [] none = DevResult.noDevices ∧
    validate_device_id exampleDevices none = DevResult.attrError :=
  ⟨(validate_device_id_none_never_default []).1 rfl,
   (validate_device_id_none_never_default exampleDevices).2 (by decide)⟩

/-- Counterexample to claim C1 as stated: on the specification's example
device list, resolving the unknown string `"garbage"` (which matches no
device id, name or type) does not raise `NoSpotifyDevicesError`; the unknown
string is returned unchanged, because `validate_device_id` only raises when
the (possibly rebound) identifier is `None` at the end. -/
theorem validate_device_id_unknown_counterexample :
    validate_device_id exampleDevices (some "garbage") = DevResult.ok "garbage" ∧
    validate_device_id exampleDevices (some "garbage") ≠ DevResult.noDevices :=
  ⟨by decide, by decide⟩

theorem validate_found_of_id_match (devices : List Device) (s : String)
    (h : ∃ d ∈ devices, d.id = s) :
    validate_device_id devices (some s) = DevResult.ok s := by
  have hfound : (devices.any (fun d => some s == some d.id)) = true := by
    rw [List.any_eq_true]
    obtain ⟨d, hd, hid⟩ := h
    exact ⟨d, hd, by simp [hid]⟩
  unfold validate_device_id
  rw [hfound]
  rfl

theorem validate_no_id_match (devices : List Device) (s : String)
    (h : ¬ ∃ d ∈ devices, d.id = s) :
    validate_device_id devices (some s) =
      match (devices.find? (fun d => lower d.name == lower s)).map (fun d => d.id) with
      | some newId => DevResult.ok newId
      | none =>
        match (devices.find? (fun d => lower d.type == lower s)).map (fun d => d.id) with
        | some newId => DevResult.ok newId
        | none => DevResult.ok s := by
  have hfound : (devices.any (fun d => some s == some d.id)) = false := by
    rw [Bool.eq_false_iff]
    intro hc
    rw [List.any_eq_true] at hc
    obtain ⟨d, hd, hb⟩ := hc
    simp only [beq_iff_eq, Option.some.injEq] at hb
    exact h ⟨d, hd, hb.symm⟩
  unfold validate_device_id
  rw [hfound, nameScan_some, typeScan_some]
  cases (devices.find? (fun d => lower d.name == lower s)).map (fun d => d.id) with
  | some newId => rfl
  | none =>
      cases (devices.find? (fun d => lower d.type == lower s)).map (fun d => d.id) with
      | some newId => rfl
      | none => rfl

/-- Claim C1 (amended): `validate_device_id` resolves with precedence exact
device-id match, then case-insensitive exact device-name match, then
case-insensitive exact device-type match; on the example list
`[{id:"a",name:"Kitchen",type:"Speaker"}, {id:"b",name:"Office",type:"Computer"}]`
resolving `"a"` yields `"a"`, resolving `"office"` in any casing yields
`"b"`, and resolving `"speaker"` yields `"a"`; but an unknown string that
matches no id, name or type is returned unchanged rather than raising:
`NoSpotifyDevicesError` is raised only when the identifier left at the end of
the function is `None`. -/
theorem validate_device_id_precedence :
    (validate_device_id exampleDevices (some "a") = DevResult.ok "a") ∧
    (∀ s : String, lower s = "office" →
      validate_device_id exampleDevices (some s) = DevResult.ok "b") ∧
    (validate_device_id exampleDevices (some "speaker") = DevResult.ok "a") ∧
    (∀ (devices : List Device) (s : String),
      (∃ d ∈ devices, d.id = s) →
      validate_device_id devices (some s) = DevResult.ok s) ∧
    (∀ (devices : List Device) (s : String) (d : Device),
      (¬ ∃ d ∈ devices, d.id = s) →
      devices.find? (fun d => lower d.name == lower s) = some d →
      validate_device_id devices (some s) = DevResult.ok d.id) ∧
    (∀ (devices : List Device) (s : String) (d : Device),
      (¬ ∃ d ∈ devices, d.id = s) →
      devices.find? (fun d => lower d.name == lower s) = none →
      devices.find? (fun d => lower d.type == lower s) = some d →
      validate_device_id devices (some s) = DevResult.ok d.id) ∧
    (∀ (devices : List Device) (s : String),
      (¬ ∃ d ∈ devices, d.id = s) →
      devices.find? (fun d => lower d.name == lower s) = none →
      devices.find? (fun d => lower d.type == lower s) = none →
      validate_device_id devices (some s) = DevResult.ok s) := by
  refine ⟨by decide, ?_, by decide, ?_, ?_, ?_, ?_⟩
  · intro s hs
    have hne : ¬ ∃ d ∈ exampleDevices, d.id = s := by
      rintro ⟨d, hd, hid⟩
      have : d = ⟨"a", "Kitchen", "Speaker"⟩ ∨ d = ⟨"b", "Office", "Computer"⟩ := by
        simpa [exampleDevices] using hd
      rcases this with rfl | rfl
      · rw [← hid] at hs
        exact absurd hs (by decide)
      · rw [← hid] at hs
        exact absurd hs (by decide)
    rw [validate_no_id_match exampleDevices s hne]
    have h1 : (lower (Device.mk "a" "Kitchen" "Speaker").name == lower s) = false := by
      rw [hs]
      decide
    have h2 : (lower (Device.mk "b" "Office" "Computer").name == lower s) = true := by
      rw [hs]
      decide
    simp [exampleDevices, List.find?, h1, h2]
  · intro devices s h
    exact validate_found_of_id_match devices s h
  · intro devices s d hne hfind
    rw [validate_no_id_match devices s hne, hfind]
    rfl
  · intro devices s d hne hname htype
    rw [validate_no_id_match devices s hne, hname, htype]
    rfl
  · intro devices s hne hname htype
    rw [validate_no_id_match devices s hne, hname, htype]
    rfl

/-- Closed witness for `validate_device_id_precedence`: the case-insensitive
name match at `"OFFICE"` and the id-precedence clause at `"a"`. -/
theorem validate_device_id_precedence_witness :
    validate_device_id exampleDevices (some "OFFICE") = DevResult.ok "b" ∧
    validate_device_id exampleDevices (some "a") = DevResult.ok "a" :=
  ⟨validate_device_id_precedence.2.1 "OFFICE" (by decide),
   validate_device_id_precedence.2.2.2.1 exampleDevices "a"
     ⟨⟨"a", "Kitchen", "Speaker"⟩, by decide, rfl⟩⟩

/-- The mutable metadata of `SpotifydHooks`
(`ovos_media_plugin_spotify/spotifyd.py`): `current_uri`, `_last_sync_ts`,
`_track_len` and `_track_pos` (lengths/positions in milliseconds, timestamps
in seconds; all initialised to `None`/`0`). -/
structure HooksState where
  currentUri : Option String
  lastSyncTs : ℚ
  trackLen : ℚ
  trackPos : ℚ
deriving DecidableEq, Repr

/-- `SpotifydHooks.reset_metadata` (also the constructor's initial values). -/
def reset_metadata : HooksState := ⟨none, 0, 0, 0⟩

/-- `SpotifydHooks.get_track_position` (`spotifyd.py:47-56`, identical code in
`SpotifyOCPAudioService.get_track_position`, `__init__.py:181-190`): the
stored position, extrapolated by the wall-clock time elapsed since the last
sync when a sync timestamp is set; a still-unknown (zero) track length is
first set to the computed position; the returned value is clamped by
`min` to the track length.  Returns the value together with the updated
state (the `_track_len` write is a side effect). -/
def get_track_position (s : HooksState) (now : ℚ) : ℚ × HooksState :=
  let pos := s.trackPos
  let pos := if s.lastSyncTs ≠ 0 then pos + (now - s.lastSyncTs) * 1000 else pos
  let s' := if s.trackLen = 0 then { s with trackLen := pos } else s
  (min pos s'.trackLen, s')

/-- `SpotifydHooks.get_track_length` (`spotifyd.py:41-45`):
`self._track_len or self.get_track_position()`. -/
def get_track_length (s : HooksState) (now : ℚ) : ℚ :=
  if s.trackLen ≠ 0 then s.trackLen else (get_track_position s now).1

/-- Claim C4: `get_track_position` returns
`min(last_position + (now − last_sync) × 1000, track_length)` whenever a sync
timestamp and a track length are known; with `track_length = 180000` ms,
`last_position = 10000` ms and sync timestamp `T ≠ 0`, querying at `T + 2` s
returns `12000` ms and querying at `T + 1000` s returns exactly `180000` ms;
a still-unknown (zero) track length is set equal to the computed position;
and for every state and query time the returned position never exceeds the
track length subsequently reported by `get_track_length`. -/
theorem get_track_position_clamped (s : HooksState) (now : ℚ) (uri : Option String) :
    (s.lastSyncTs ≠ 0 → s.trackLen ≠ 0 →
      (get_track_position s now).1 =
        min (s.trackPos + (now - s.lastSyncTs) * 1000) s.trackLen) ∧
    (∀ T : ℚ, T ≠ 0 →
      (get_track_position ⟨uri, T, 180000, 10000⟩ (T + 2)).1 = 12000) ∧
    (∀ T : ℚ, T ≠ 0 →
      (get_track_position ⟨uri, T, 180000, 10000⟩ (T + 1000)).1 = 180000) ∧
    (s.trackLen = 0 →
      (get_track_position s now).2.trackLen =
        (if s.lastSyncTs ≠ 0 then s.trackPos + (now - s.lastSyncTs) * 1000
         else s.trackPos)) ∧
    ((get_track_position s now).1 ≤
      get_track_length (get_track_position s now).2 now) := by
  refine ⟨?_, ?_, ?_, ?_, ?_⟩
  · intro hsync hlen
    simp [get_track_position, hsync, hlen]
  · intro T hT
    simp only [get_track_position, hT, ne_eq, not_false_eq_true, if_true]
    norm_num
  · intro T hT
    simp only [get_track_position, hT, ne_eq, not_false_eq_true, if_true]
    norm_num
  · intro hlen
    by_cases hsync : s.lastSyncTs ≠ 0 <;> simp [get_track_position, hlen, hsync]
  · by_cases hlen : s.trackLen = 0
    · by_cases hsync : s.lastSyncTs ≠ 0
      · simp [get_track_position, get_track_length, hlen, hsync]
      · simp [get_track_position, get_track_length, hlen, hsync]
    · simp [get_track_position, get_track_length, hlen, min_le_right]

/-- Closed witness for `get_track_position_clamped`: both numeric examples at
the concrete sync timestamp `T = 5`. -/
theorem get_track_position_clamped_witness :
    (get_track_position ⟨none, 5, 180000, 10000⟩ (5 + 2)).1 = 12000 ∧
    (get_track_position ⟨none, 5, 180000, 10000⟩ (5 + 1000)).1 = 180000 :=
  ⟨(get_track_position_clamped reset_metadata 0 none).2.1 5 (by norm_num),
   (get_track_position_clamped reset_metadata 0 none).2.2.1 5 (by norm_num)⟩

/-- The inbound spotifyd events consumed by `SpotifydHooks` with the payload
fields each handler reads (`track_id`, `position`, `duration`). -/
inductive SpotifydEvent where
  | start (trackId : String) (position : ℚ)
  | play (trackId : String) (duration position : ℚ)
  | pause (trackId : String) (duration position : ℚ)
  | stop
  | load (trackId : String) (position : ℚ)
  | preloading
  | endOfTrack
  | change (trackId : String)
deriving DecidableEq, Repr

/-- Observable output of one (or several) hook invocations: the
`(message type, state payload)` pairs emitted on the bus, and the arguments
of the invocations of the track-start and track-end callbacks (made when the
corresponding callback is wired, i.e. not `None`). -/
structure HookOutput where
  emitted : List (String × ℕ)
  startCalls : List (Option String)
  endCalls : List (Option String)
deriving DecidableEq, Repr

/-- The spotifyd hook handlers of `SpotifydHooks` (`spotifyd.py:60-122`):
`on_spotify_start`, `on_spotify_play`, `on_spotify_pause`, `on_spotify_stop`,
`on_spotify_load`, `on_spotify_preloading`, `on_spotify_end` and
`on_spotify_change`, each taking the current wall-clock time `now`
(`time.time()`) and producing the updated state and the observable output. -/
def handleEvent (s : HooksState) (now : ℚ) : SpotifydEvent → HooksState × HookOutput
  | .start tid pos =>
      ({ s with lastSyncTs := now, currentUri := some ("spotify:track:" ++ tid),
                trackPos := pos },
       ⟨[("ovos.common_play.media.state", 2)], [], []⟩)
  | .play tid dur pos =>
      ({ s with lastSyncTs := now, currentUri := some ("spotify:track:" ++ tid),
                trackLen := dur, trackPos := pos },
       ⟨[("ovos.common_play.player.state", 1), ("ovos.common_play.media.state", 6)],
        [some ("spotify:track:" ++ tid)], []⟩)
  | .pause tid dur pos =>
      ({ s with currentUri := some ("spotify:track:" ++ tid), trackLen := dur,
                trackPos := pos, lastSyncTs := 0 },
       ⟨[("ovos.common_play.player.state", 2)], [], []⟩)
  | .stop =>
      (reset_metadata,
       ⟨[("ovos.common_play.media.state", 1), ("ovos.common_play.player.state", 0)],
        [], []⟩)
  | .load tid pos =>
      ({ s with lastSyncTs := now, trackPos := pos,
                currentUri := some ("spotify:track:" ++ tid) },
       ⟨[], [], []⟩)
  | .preloading => (s, ⟨[], [], []⟩)
  | .endOfTrack =>
      ({ s with trackPos := s.trackLen },
       ⟨[("ovos.common_play.player.state", 2), ("ovos.common_play.media.state", 7)],
        [], [s.currentUri]⟩)
  | .change tid =>
      ({ s with currentUri := some ("spotify:track:" ++ tid), lastSyncTs := now },
       ⟨[("ovos.common_play.player.state", 2), ("ovos.common_play.media.state", 2)],
        [], []⟩)

/-- Inject a sequence of timestamped spotifyd events into the hook bridge,
concatenating the observable outputs in order. -/
def runEvents (s : HooksState) : List (ℚ × SpotifydEvent) → HooksState × HookOutput
  | [] => (s, ⟨[], [], []⟩)
  | (t, e) :: rest =>
      let step := handleEvent s t e
      let tail := runEvents step.1 rest
      (tail.1, ⟨step.2.emitted ++ tail.2.emitted,
                step.2.startCalls ++ tail.2.startCalls,
                step.2.endCalls ++ tail.2.endCalls⟩)

/-- Claim C8: injecting `start → play → end_of_track` into the spotifyd hook
bridge emits, in exactly this order, media-state loading(2); then player-state
playing(1) followed by media-state buffered(6); then player-state paused(2)
followed by media-state end-of-media(7); and across the whole sequence the
track-end callback fires exactly once, with the URI derived from the start
event's track id. -/
theorem spotifyd_start_play_end_sequence (tid : String) (pos dur pos₂ t₁ t₂ t₃ : ℚ) :
    (runEvents reset_metadata
        [(t₁, .start tid pos), (t₂, .play tid dur pos₂), (t₃, .endOfTrack)]).2 =
      ⟨[("ovos.common_play.media.state", 2),
        ("ovos.common_play.player.state", 1), ("ovos.common_play.media.state", 6),
        ("ovos.common_play.player.state", 2), ("ovos.common_play.media.state", 7)],
       [some ("spotify:track:" ++ tid)],
       [some ("spotify:track:" ++ tid)]⟩ := by
  rfl

/-- Plugin-side state of `SpotifyAudioService`
(`ovos_media_plugin_spotify/audio.py`): the plugin-paused flag `_paused`
(set only by the plugin's own `pause`), the `_last_sync_ts` timestamp and the
owned `SpotifydHooks` bridge state. -/
structure AudioServiceState where
  paused : Bool
  lastSyncTs : ℚ
  hooks : HooksState
deriving DecidableEq, Repr

/-- Outward calls made by the plugin operations modelled here: a Spotify
pause request targeting a device, and an invocation of the host's registered
track-start callback (which `on_track_end` calls with `None`). -/
inductive AudioAction where
  | pauseCall (dev : String)
  | trackStartCb (uri : Option String)
deriving DecidableEq, Repr

/-- `SpotifyAudioService.on_track_end` (`audio.py:49-55`): with an empty
`uri` argument it resets the bridge metadata; it always clears the
plugin-paused flag and the sync timestamp and invokes the track-start
callback with `None` (the track-end transition). -/
def on_track_end (s : AudioServiceState) (uri : String) :
    AudioServiceState × List AudioAction :=
  let s' := if uri = "" then { s with hooks := reset_metadata } else s
  ({ s' with paused := false, lastSyncTs := 0 }, [.trackStartCb none])

/-- `SpotifyAudioService.stop` (`audio.py:82-86`): there is no hard stop, so
it pauses the configured device and forces the track-end transition — but
only when the plugin-paused flag is not set. -/
def SpotifyAudioService.stop (deviceName : String) (s : AudioServiceState) :
    AudioServiceState × List AudioAction :=
  if !s.paused then
    let step := on_track_end s ""
    (step.1, .pauseCall deviceName :: step.2)
  else (s, [])

/-- Claim C7: the media plugin's stop operation (latest generation,
`SpotifyAudioService.stop` in `ovos_media_plugin_spotify/audio.py`) issues a
pause and forces the track-end transition only when the plugin-paused flag is
unset; when the flag is set it performs no pause call and no track-end
transition and leaves the plugin state unchanged. -/
theorem stop_guarded_by_paused (deviceName : String) (s : AudioServiceState) :
    (s.paused = true → SpotifyAudioService.stop deviceName s = (s, [])) ∧
    (s.paused = false → SpotifyAudioService.stop deviceName s =
      ({ paused := false, lastSyncTs := 0, hooks := reset_metadata },
       [.pauseCall deviceName, .trackStartCb none])) := by
  constructor
  · intro h
    simp [SpotifyAudioService.stop, h]
  · intro h
    simp [SpotifyAudioService.stop, on_track_end, h]

/-- Closed witness for `stop_guarded_by_paused`: a plugin-paused state is left
untouched, and a non-paused one pauses and forces the track-end transition. -/
theorem stop_guarded_by_paused_witness :
    SpotifyAudioService.stop "dev" ⟨true, 7, reset_metadata⟩ =
      (⟨true, 7, reset_metadata⟩, []) ∧
    SpotifyAudioService.stop "dev" ⟨false, 7, reset_metadata⟩ =
      (⟨false, 0, reset_metadata⟩,
       [.pauseCall "dev", .trackStartCb none]) :=
  ⟨(stop_guarded_by_paused "dev" ⟨true, 7, reset_metadata⟩).1 rfl,
   (stop_guarded_by_paused "dev" ⟨false, 7, reset_metadata⟩).2 rfl⟩

/-- Result of one `OAuthApi().get_oauth_token(...)` broker call: either a
response dictionary (`none` models a falsy response: `None` or empty), or a
raised `HTTPError` with the given status code. -/
inductive BrokerResult where
  | success (tok : Option String)
  | httpError (status : ℕ)
deriving DecidableEq, Repr

/-- Result of `OVOSSpotifyCredentials.get_token`: the token data, a raised
`SpotifyNotAuthorizedError`, or an `HTTPError` from the uncaught retry call
propagating to the caller. -/
inductive TokenOutcome where
  | token (t : String)
  | notAuthorized
  | uncaughtError (status : ℕ)
deriving DecidableEq, Repr

/-- `OVOSSpotifyCredentials.get_token`
(`ovos_media_plugin_spotify/spotify_client.py:41-59`, identical in the legacy
generation): one broker call; on `HTTPError` 404 (token not registered) or
401 (device not paired) it raises `SpotifyNotAuthorizedError` at once, on any
other `HTTPError` it sets the retry flag and calls the broker a second time
(this second call is outside the `try` block, so its `HTTPError` propagates);
finally a falsy result raises `SpotifyNotAuthorizedError`.  The second
component counts the broker calls made. -/
def get_token (call₁ call₂ : BrokerResult) : TokenOutcome × ℕ :=
  match call₁ with
  | .success d =>
      (match d with
       | some t => .token t
       | none => .notAuthorized, 1)
  | .httpError st =>
      if st = 404 then (.notAuthorized, 1)
      else if st = 401 then (.notAuthorized, 1)
      else
        match call₂ with
        | .success (some t) => (.token t, 2)
        | .success none => (.notAuthorized, 2)
        | .httpError st₂ => (.uncaughtError st₂, 2)

/-- Claim C9: `get_token` calls the broker once; an HTTP 404 or 401 failure
raises `NotAuthorized` immediately with no retry; any other HTTP failure
retries the broker exactly once; and if after the retry no token value was
obtained it raises `NotAuthorized`. -/
theorem get_token_retry_policy (call₂ : BrokerResult) (st : ℕ) (t : String) :
    (get_token (.success (some t)) call₂ = (.token t, 1)) ∧
    (get_token (.success none) call₂ = (.notAuthorized, 1)) ∧
    (get_token (.httpError 404) call₂ = (.notAuthorized, 1)) ∧
    (get_token (.httpError 401) call₂ = (.notAuthorized, 1)) ∧
    (st ≠ 404 → st ≠ 401 →
      ((get_token (.httpError st) call₂).2 = 2 ∧
       (get_token (.httpError st) (.success none) = (.notAuthorized, 2)) ∧
       (get_token (.httpError st) (.success (some t)) = (.token t, 2)))) := by
  refine ⟨rfl, rfl, rfl, rfl, ?_⟩
  intro h404 h401
  refine ⟨?_, ?_, ?_⟩
  · cases call₂ with
    | success tok => cases tok <;> simp [get_token, h404, h401]
    | httpError st₂ => simp [get_token, h404, h401]
  · simp [get_token, h404, h401]
  · simp [get_token, h404, h401]

/-- Closed witness for `get_token_retry_policy`: a broker failure with HTTP
status 500 retries once and, when the retry yields no token, raises
`NotAuthorized`. -/
theorem get_token_retry_policy_witness :
    (get_token (.httpError 500) (.success none)).2 = 2 ∧
    get_token (.httpError 500) (.success none) = (.notAuthorized, 2) :=
  ⟨((get_token_retry_policy (.success none) 500 "tok").2.2.2.2 (by decide)
      (by decide)).1,
   ((get_token_retry_policy (.success none) 500 "tok").2.2.2.2 (by decide)
      (by decide)).2.1⟩

/-- The Spotify catalog as seen through the client's expansion helpers:
`tracks_from_playlist` (track ids in playlist order), `tracks_from_artist`
(the artist's top-track ids) and `tracks_from_album` (the album's track ids),
each keyed by the full `spotify:<kind>:<id>` URI passed to them
(`ovos_media_plugin_spotify/spotify_client.py:399-413`). -/
structure Catalog where
  playlistTracks : String → List String
  artistTopTracks : String → List String
  albumTracks : String → List String

/-- Python `s.startswith(pre)`, charwise. -/
def startswith (s pre : String) : Bool := s.data.take pre.data.length == pre.data

/-- One iteration of the expansion loop of `SpotifyClient.play`
(`spotify_client.py:363-369`): a playlist, artist or album URI is replaced by
the list of its constituent `spotify:track:<id>` URIs (playlist checked
first, then artist, then album); any other URI is left in place as a plain
string. -/
def expand_uri (c : Catalog) (uri : String) : String ⊕ List String :=
  if startswith uri "spotify:playlist:" then
    .inr ((c.playlistTracks uri).map (fun t => "spotify:track:" ++ t))
  else if startswith uri "spotify:artist:" then
    .inr ((c.artistTopTracks uri).map (fun t => "spotify:track:" ++ t))
  else if startswith uri "spotify:album:" then
    .inr ((c.albumTracks uri).map (fun t => "spotify:track:" ++ t))
  else
    .inl uri

/-- `ovos_utils.flatten_list` as applied to the expansion loop's result: the
list holds plain strings (unexpanded URIs) and nested track-URI lists, and is
flattened into one ordered flat list of strings. -/
def flatten_list : List (String ⊕ List String) → List String
  | [] => []
  | .inl s :: rest => s :: flatten_list rest
  | .inr l :: rest => l ++ flatten_list rest

/-- The single `start_playback` request issued by `SpotifyClient.play`
(via `SpotifyConnect.play`, `spotify_client.py:197-209`). -/
structure StartPlaybackCall where
  devId : Option String
  uris : List String
  contextUri : Option String
deriving DecidableEq, Repr

/-- Outcome of the issued `start_playback` call, as seen by the `try` block
of `SpotifyClient.play` (`spotify_client.py:373-386`): success, a
`spotipy.SpotifyException` with its HTTP status, or any other exception. -/
inductive SpotifyCallOutcome where
  | ok
  | spotifyException (httpStatus : ℕ)
  | otherException (e : String)
deriving DecidableEq, Repr

/-- Result of `SpotifyClient.play` for the caller: normal return, raised
`SpotifyNotAuthorizedError`, or the original non-Spotify exception
propagating unchanged (after being logged). -/
inductive PlayResult where
  | ok
  | notAuthorized
  | propagated (e : String)
deriving DecidableEq, Repr

/-- The exception handling of `SpotifyClient.play` (`spotify_client.py:
373-386`): an HTTP 403 `SpotifyException` is logged and swallowed (play is
likely already in progress), any other `SpotifyException` is re-raised as
`SpotifyNotAuthorizedError`, and any other exception is logged and
re-raised unchanged. -/
def play_exception_handling : SpotifyCallOutcome → PlayResult
  | .ok => .ok
  | .spotifyException st => if st = 403 then .ok else .notAuthorized
  | .otherException e => .propagated e

/-- `SpotifyClient.play` of the newer generation (`spotify_client.py:352-386`)
for a list-typed `uris` argument (a plain-string playlist argument instead
dispatches to `start_playlist_playback` and is not part of the claims
modelled here; device resolution via `validate_device_id` is modelled
separately and the resolved id is taken as given).  When no context URI is
supplied, every playlist/artist/album URI in the list is expanded into its
constituent track URIs and the list is flattened; one `start_playback` call
is then issued with those URIs, whose outcome is fed through the
exception-handling policy. -/
def play (c : Catalog) (outcome : SpotifyCallOutcome) (uris : List String)
    (devId : Option String) (ctxUri : Option String) :
    StartPlaybackCall × PlayResult :=
  let sentUris :=
    match ctxUri with
    | none => flatten_list (uris.map (expand_uri c))
    | some _ => uris
  (⟨devId, sentUris, ctxUri⟩, play_exception_handling outcome)

/-- Claim C2: for every play invocation, a `SpotifyException` with HTTP
status 403 from the issued start-playback call is swallowed (play returns
normally), a `SpotifyException` with any other status raises
`SpotifyNotAuthorizedError`, and any non-Spotify exception propagates
unchanged. -/
theorem play_error_policy (c : Catalog) (uris : List String)
    (devId ctxUri : Option String) (st : ℕ) (e : String) :
    ((play c (.spotifyException 403) uris devId ctxUri).2 = .ok) ∧
    (st ≠ 403 →
      (play c (.spotifyException st) uris devId ctxUri).2 = .notAuthorized) ∧
    ((play c (.otherException e) uris devId ctxUri).2 = .propagated e) := by
  refine ⟨rfl, ?_, rfl⟩
  intro h
  simp [play, play_exception_handling, h]

/-- Closed witness for `play_error_policy`: a SpotifyException with HTTP
status 500 makes play raise `SpotifyNotAuthorizedError`. -/
theorem play_error_policy_witness :
    (play ⟨fun _ => [], fun _ => [], fun _ => []⟩ (.spotifyException 500)
        [] none none).2 = PlayResult.notAuthorized :=
  (play_error_policy ⟨fun _ => [], fun _ => [], fun _ => []⟩ [] none none
      500 "err").2.1 (by decide)

/-- Claim C6: playing the URI list `["spotify:album:X"]` with no context URI,
where album X has tracks `[t1, t2]`, issues exactly one start-playback call
with `uris = ["spotify:track:t1", "spotify:track:t2"]` and no context URI;
and the same per-URI expansion (playlist → tracks in playlist order, artist →
top tracks, album → album tracks) applies before flattening, shown here on a
mixed playlist/artist/album list. -/
theorem play_expands_album (c : Catalog) (t1 t2 p1 p2 a1 : String)
    (dev : Option String)
    (halbum : c.albumTracks "spotify:album:X" = [t1, t2])
    (hpl : c.playlistTracks "spotify:playlist:P" = [p1, p2])
    (hart : c.artistTopTracks "spotify:artist:A" = [a1]) :
    (play c .ok ["spotify:album:X"] dev none =
      (⟨dev, ["spotify:track:" ++ t1, "spotify:track:" ++ t2], none⟩,
       PlayResult.ok)) ∧
    (play c .ok ["spotify:playlist:P", "spotify:artist:A", "spotify:album:X"]
        dev none =
      (⟨dev, ["spotify:track:" ++ p1, "spotify:track:" ++ p2,
              "spotify:track:" ++ a1,
              "spotify:track:" ++ t1, "spotify:track:" ++ t2], none⟩,
       PlayResult.ok)) := by
  have c1p : (startswith "spotify:playlist:P" "spotify:playlist:") = true := by decide
  have c2p : (startswith "spotify:artist:A" "spotify:playlist:") = false := by decide
  have c2a : (startswith "spotify:artist:A" "spotify:artist:") = true := by decide
  have c3p : (startswith "spotify:album:X" "spotify:playlist:") = false := by decide
  have c3a : (startswith "spotify:album:X" "spotify:artist:") = false := by decide
  have c3b : (startswith "spotify:album:X" "spotify:album:") = true := by decide
  constructor
  · simp [play, play_exception_handling, expand_uri, flatten_list, halbum,
          c3p, c3a, c3b]
  · simp [play, play_exception_handling, expand_uri, flatten_list, halbum,
          hpl, hart, c1p, c2p, c2a, c3p, c3a, c3b]

/-- Closed witness for `play_expands_album`, on a concrete catalog. -/
theorem play_expands_album_witness :
    play ⟨fun _ => ["px", "py"], fun _ => ["ax"], fun _ => ["t1", "t2"]⟩ .ok
        ["spotify:album:X"] (some "dev") none =
      (⟨some "dev", ["spotify:track:t1", "spotify:track:t2"], none⟩,
       PlayResult.ok) :=
  (play_expands_album ⟨fun _ => ["px", "py"], fun _ => ["ax"], fun _ => ["t1", "t2"]⟩
      "t1" "t2" "px" "py" "ax" (some "dev") rfl rfl rfl).1

/-- A playlist record of the current user; the cache only keys on its name. -/
structure Playlist where
  name : String
deriving DecidableEq, Repr

/-- The device-cache fields of a `SpotifyClient` instance: `__device_list`
(`None` initially), `__devices_fetched` (0 initially), whether a Spotify
connection is available (`self.spotify`), and an instrumentation counter of
the underlying `get_devices` API calls made. -/
structure DeviceCache where
  connected : Bool
  deviceList : Option (List Device)
  devicesFetched : ℚ
  devicesApiCalls : ℕ
deriving DecidableEq, Repr

/-- A freshly constructed, connected client (`SpotifyClient.__init__`). -/
def freshDeviceCache : DeviceCache := ⟨true, none, 0, 0⟩

/-- The `SpotifyClient.devices` property
(`ovos_media_plugin_spotify/spotify_client.py:314-323`): an empty list when
disconnected; otherwise the API is called and the cache refreshed when
`not self.__device_list` (i.e. it is `None` or empty — both falsy) or the
fetch is older than 60 seconds, and the (possibly refreshed) cached list is
returned.  `api` is the device list the underlying API call would return. -/
def devices_read (s : DeviceCache) (now : ℚ) (api : List Device) :
    List Device × DeviceCache :=
  if !s.connected then ([], s)
  else
    let stale := (match s.deviceList with
                  | none => true
                  | some l => l.isEmpty) || decide (now - s.devicesFetched > 60)
    let s' := if stale then
        { s with deviceList := some api, devicesFetched := now,
                 devicesApiCalls := s.devicesApiCalls + 1 }
      else s
    (s'.deviceList.getD [], s')

/-- The playlist-cache fields of the legacy `SpotifyClient` instance:
`_playlists` (`None` initially; rebuilt as a mapping from lowercased playlist
name to the record) and `__playlists_fetched` (0 initially), with the same
instrumentation as `DeviceCache`. -/
structure PlaylistCache where
  connected : Bool
  playlists : Option (List (String × Playlist))
  playlistsFetched : ℚ
  playlistsApiCalls : ℕ
deriving DecidableEq, Repr

/-- A freshly constructed, connected legacy client. -/
def freshPlaylistCache : PlaylistCache := ⟨true, none, 0, 0⟩

/-- The `SpotifyClient.playlists` property
(`ovos_audio_plugin_spotify/spotify_client.py:365-376`): an empty result when
disconnected; otherwise `current_user_playlists` is called and the mapping
from lowercased playlist name to record rebuilt when `not self._playlists`
(`None` or an empty dict — both falsy) or the fetch is older than `5 * 60`
seconds.  The dict is modelled as the association list in build order
(a duplicate lowercased name would overwrite in Python; no claim modelled
here looks keys up). -/
def playlists_read (s : PlaylistCache) (now : ℚ) (api : List Playlist) :
    List (String × Playlist) × PlaylistCache :=
  if !s.connected then ([], s)
  else
    let stale := (match s.playlists with
                  | none => true
                  | some l => l.isEmpty) || decide (now - s.playlistsFetched > 5 * 60)
    let s' := if stale then
        { s with playlists := some (api.map (fun p => (lower p.name, p))),
                 playlistsFetched := now,
                 playlistsApiCalls := s.playlistsApiCalls + 1 }
      else s
    (s'.playlists.getD [], s')

/-- Counterexample to claim C5 as stated: when the devices API returns an
empty list, the cached empty list is falsy and is refetched, so two
device-list reads 30 seconds apart on a fresh client make two underlying API
calls, not one. -/
theorem devices_cache_empty_counterexample :
    (devices_read (devices_read freshDeviceCache 100 []).2 130 []).2.devicesApiCalls
      = 2 ∧
    (devices_read (devices_read freshDeviceCache 100 []).2 130 []).2.devicesApiCalls
      ≠ 1 := by
  constructor <;> decide

/-- Claim C5 (amended): on a fresh connected client, a device-list read
fetches once; a second read less than 60 seconds later is served from the
cache with no further API call — provided the fetched device list was
non-empty (an empty list is falsy and is refetched); a read more than 60
seconds after the fetch calls the API a second time.  The playlist cache
satisfies the same property with a 300-second boundary, again provided the
fetched playlist collection was non-empty. -/
theorem cache_ttl_60s_devices_300s_playlists
    (t₁ t₂ t₃ u₁ u₂ u₃ : ℚ) (api₁ api₂ api₃ : List Device)
    (papi₁ papi₂ papi₃ : List Playlist)
    (hne : api₁ ≠ []) (h₁₂ : t₂ - t₁ < 60) (h₁₃ : t₃ - t₁ > 60)
    (hpne : papi₁ ≠ []) (hu₁₂ : u₂ - u₁ < 300) (hu₁₃ : u₃ - u₁ > 300) :
    ((devices_read freshDeviceCache t₁ api₁).1 = api₁ ∧
     (devices_read freshDeviceCache t₁ api₁).2.devicesApiCalls = 1) ∧
    (devices_read (devices_read freshDeviceCache t₁ api₁).2 t₂ api₂ =
      (api₁, (devices_read freshDeviceCache t₁ api₁).2)) ∧
    ((devices_read (devices_read freshDeviceCache t₁ api₁).2 t₃ api₃).1 = api₃ ∧
     (devices_read (devices_read freshDeviceCache t₁ api₁).2 t₃ api₃).2.devicesApiCalls
       = 2) ∧
    ((playlists_read freshPlaylistCache u₁ papi₁).2.playlistsApiCalls = 1) ∧
    (playlists_read (playlists_read freshPlaylistCache u₁ papi₁).2 u₂ papi₂ =
      (papi₁.map (fun p => (lower p.name, p)),
       (playlists_read freshPlaylistCache u₁ papi₁).2)) ∧
    ((playlists_read (playlists_read freshPlaylistCache u₁ papi₁).2 u₃ papi₃).2.playlistsApiCalls
       = 2) := by
  have hd2 : decide (t₂ - t₁ > 60) = false := decide_eq_false (by linarith)
  have hd3 : decide (t₃ - t₁ > 60) = true := decide_eq_true h₁₃
  have hp2 : decide (u₂ - u₁ > 5 * 60) = false := decide_eq_false (by linarith)
  have hp3 : decide (u₃ - u₁ > 5 * 60) = true := decide_eq_true (by linarith)
  have hape : api₁.isEmpty = false := by
    cases api₁ with
    | nil => exact absurd rfl hne
    | cons a l => rfl
  have hppe : (papi₁.map (fun p => (lower p.name, p))).isEmpty = false := by
    cases papi₁ with
    | nil => exact absurd rfl hpne
    | cons a l => rfl
  refine ⟨⟨?_, ?_⟩, ?_, ⟨?_, ?_⟩, ?_, ?_, ?_⟩ <;>
    simp [devices_read, playlists_read, freshDeviceCache, freshPlaylistCache,
          hd2, hd3, hp2, hp3, hape, hppe]

/-- Closed witness for `cache_ttl_60s_devices_300s_playlists` at concrete
times 100/130/200 (devices) and 100/250/500 (playlists) with singleton API
results. -/
theorem cache_ttl_witness :
    (devices_read (devices_read freshDeviceCache 100 [⟨"a", "n", "t"⟩]).2 130
        [⟨"b", "n2", "t2"⟩] =
      ([⟨"a", "n", "t"⟩], (devices_read freshDeviceCache 100 [⟨"a", "n", "t"⟩]).2)) ∧
    ((devices_read (devices_read freshDeviceCache 100 [⟨"a", "n", "t"⟩]).2 200
        [⟨"b", "n2", "t2"⟩]).2.devicesApiCalls = 2) ∧
    ((playlists_read (playlists_read freshPlaylistCache 100 [⟨"P"⟩]).2 500
        [⟨"Q"⟩]).2.playlistsApiCalls = 2) := by
  have h := cache_ttl_60s_devices_300s_playlists 100 130 200 100 250 500
    [⟨"a", "n", "t"⟩] [⟨"b", "n2", "t2"⟩] [⟨"b", "n2", "t2"⟩]
    [⟨"P"⟩] [⟨"Q"⟩] [⟨"Q"⟩]
    (by decide) (by norm_num) (by norm_num)
    (by decide) (by norm_num) (by norm_num)
  exact ⟨h.2.1, h.2.2.1.2, h.2.2.2.2.2⟩

/-- The ascending-by-confidence comparison used as the sort key of
`sorted(results, key=lambda x: x[0])`. -/
def confLE {α : Type} (x y : ℚ × α) : Prop := x.1 ≤ y.1

instance {α : Type} : DecidableRel (confLE (α := α)) :=
  fun x y => inferInstanceAs (Decidable (x.1 ≤ y.1))

/-- `SpotifyClient.best_result`
(`ovos_audio_plugin_spotify/spotify_client.py:325-337`): the empty list maps
to the `NOTHING_FOUND` sentinel (modelled as `none`); otherwise the list is
reversed in place and the last element of `sorted(results, key=lambda x:
x[0])` is returned.  Python's `sorted` is a stable ascending sort by the key,
modelled by Mathlib's stable `List.insertionSort`. -/
def best_result {α : Type} (results : List (ℚ × α)) : Option (ℚ × α) :=
  if results.length = 0 then none
  else (List.insertionSort confLE results.reverse).getLast?

theorem getLast?_cons_ne {α : Type} (b : ℚ × α) (t : List (ℚ × α)) (h : t ≠ []) :
    (b :: t).getLast? = t.getLast? := by
  cases t with
  | nil => exact absurd rfl h
  | cons c u => rfl

theorem orderedInsert_ne_nil {α : Type} (x : ℚ × α) (s : List (ℚ × α)) :
    List.orderedInsert confLE x s ≠ [] := by
  cases s with
  | nil => simp [List.orderedInsert]
  | cons b l =>
      simp only [List.orderedInsert]
      split <;> simp

theorem getLast?_orderedInsert_of_lt {α : Type} (x : ℚ × α) (s : List (ℚ × α))
    (h : ∀ y ∈ s, y.1 < x.1) :
    (List.orderedInsert confLE x s).getLast? = some x := by
  induction s with
  | nil => rfl
  | cons b l ih =>
      have hb : b.1 < x.1 := h b (List.mem_cons_self b l)
      have hnb : ¬ confLE x b := not_le.mpr hb
      simp only [List.orderedInsert, if_neg hnb]
      rw [getLast?_cons_ne b _ (orderedInsert_ne_nil x l)]
      exact ih (fun y hy => h y (List.mem_cons_of_mem b hy))

theorem getLast?_orderedInsert_of_le {α : Type} (x : ℚ × α) (s : List (ℚ × α))
    (h : ∃ y ∈ s, x.1 ≤ y.1) :
    (List.orderedInsert confLE x s).getLast? = s.getLast? := by
  induction s with
  | nil =>
      obtain ⟨y, hy, _⟩ := h
      cases hy
  | cons b l ih =>
      by_cases hxb : confLE x b
      · simp only [List.orderedInsert, if_pos hxb]
        exact getLast?_cons_ne x (b :: l) (List.cons_ne_nil b l)
      · simp only [List.orderedInsert, if_neg hxb]
        obtain ⟨y, hy, hxy⟩ := h
        rcases List.mem_cons.mp hy with rfl | hyl
        · exact absurd hxy hxb
        · have hl : l ≠ [] := List.ne_nil_of_mem hyl
          rw [getLast?_cons_ne b _ (orderedInsert_ne_nil x l), ih ⟨y, hyl, hxy⟩,
              getLast?_cons_ne b l hl]

/-- The last element of the list attaining the maximal confidence (`none` on
the empty list); this is the element a stable ascending sort leaves last. -/
def lastMax {α : Type} : List (ℚ × α) → Option (ℚ × α)
  | [] => none
  | x :: xs =>
      match lastMax xs with
      | none => some x
      | some m => if m.1 < x.1 then some x else some m

theorem lastMax_cons_ne_none {α : Type} (x : ℚ × α) (xs : List (ℚ × α)) :
    lastMax (x :: xs) ≠ none := by
  simp only [lastMax]
  cases lastMax xs with
  | none => simp
  | some m => by_cases h : m.1 < x.1 <;> simp [h]

theorem lastMax_mem {α : Type} :
    ∀ {l : List (ℚ × α)} {m : ℚ × α}, lastMax l = some m → m ∈ l := by
  intro l
  induction l with
  | nil => intro m h; cases h
  | cons x xs ih =>
      intro m h
      simp only [lastMax] at h
      cases he : lastMax xs with
      | none =>
          rw [he] at h
          cases h
          exact List.mem_cons_self x xs
      | some m' =>
          rw [he] at h
          dsimp only at h
          by_cases hlt : m'.1 < x.1
          · rw [if_pos hlt] at h
            cases h
            exact List.mem_cons_self x xs
          · rw [if_neg hlt] at h
            cases h
            exact List.mem_cons_of_mem x (ih he)

theorem lastMax_max {α : Type} :
    ∀ {l : List (ℚ × α)} {m : ℚ × α}, lastMax l = some m → ∀ y ∈ l, y.1 ≤ m.1 := by
  intro l
  induction l with
  | nil => intro m h; cases h
  | cons x xs ih =>
      intro m h y hy
      simp only [lastMax] at h
      cases he : lastMax xs with
      | none =>
          rw [he] at h
          cases h
          have hxs : xs = [] := by
            cases xs with
            | nil => rfl
            | cons a l => exact absurd he (lastMax_cons_ne_none a l)
          subst hxs
          rcases List.mem_cons.mp hy with rfl | hy'
          · exact le_refl _
          · cases hy'
      | some m' =>
          rw [he] at h
          dsimp only at h
          by_cases hlt : m'.1 < x.1
          · rw [if_pos hlt] at h
            cases h
            rcases List.mem_cons.mp hy with rfl | hy'
            · exact le_refl _
            · exact le_of_lt (lt_of_le_of_lt (ih he y hy') hlt)
          · rw [if_neg hlt] at h
            cases h
            rcases List.mem_cons.mp hy with rfl | hy'
            · exact le_of_not_lt hlt
            · exact ih he y hy'

theorem lastMax_split {α : Type} :
    ∀ {l : List (ℚ × α)} {m : ℚ × α}, lastMax l = some m →
      ∃ l₁ l₂, l = l₁ ++ m :: l₂ ∧ ∀ y ∈ l₂, y.1 < m.1 := by
  intro l
  induction l with
  | nil => intro m h; cases h
  | cons x xs ih =>
      intro m h
      simp only [lastMax] at h
      cases he : lastMax xs with
      | none =>
          rw [he] at h
          cases h
          have hxs : xs = [] := by
            cases xs with
            | nil => rfl
            | cons a l => exact absurd he (lastMax_cons_ne_none a l)
          subst hxs
          exact ⟨[], [], rfl, by intro y hy; cases hy⟩
      | some m' =>
          rw [he] at h
          dsimp only at h
          by_cases hlt : m'.1 < x.1
          · rw [if_pos hlt] at h
            cases h
            exact ⟨[], xs, rfl,
              fun y hy => lt_of_le_of_lt (lastMax_max he y hy) hlt⟩
          · rw [if_neg hlt] at h
            cases h
            obtain ⟨l₁, l₂, heq, hlt₂⟩ := ih he
            exact ⟨x :: l₁, l₂, by rw [heq]; rfl, hlt₂⟩

theorem getLast?_insertionSort {α : Type} (l : List (ℚ × α)) :
    (List.insertionSort confLE l).getLast? = lastMax l := by
  induction l with
  | nil => rfl
  | cons x xs ih =>
      show (List.orderedInsert confLE x (List.insertionSort confLE xs)).getLast?
        = lastMax (x :: xs)
      cases he : lastMax xs with
      | none =>
          have hxs : xs = [] := by
            cases xs with
            | nil => rfl
            | cons a l => exact absurd he (lastMax_cons_ne_none a l)
          subst hxs
          rfl
      | some m =>
          by_cases hlt : m.1 < x.1
          · have hall : ∀ y ∈ List.insertionSort confLE xs, y.1 < x.1 := by
              intro y hy
              have hy' : y ∈ xs := (List.perm_insertionSort confLE xs).mem_iff.mp hy
              exact lt_of_le_of_lt (lastMax_max he y hy') hlt
            rw [getLast?_orderedInsert_of_lt x _ hall]
            simp [lastMax, he, hlt]
          · have hmem : m ∈ List.insertionSort confLE xs :=
              (List.perm_insertionSort confLE xs).mem_iff.mpr (lastMax_mem he)
            rw [getLast?_orderedInsert_of_le x _ ⟨m, hmem, le_of_not_lt hlt⟩, ih, he]
            simp [lastMax, he, hlt]

/-- Claim C3: `best_result` maps the empty list to the nothing-found
sentinel; on `[(0.6,"x"), (0.9,"y"), (0.9,"z")]` it returns `(0.9,"y")`; and
on every non-empty list it returns an occurrence of the maximal-confidence
value such that every element before that occurrence has strictly smaller
confidence — i.e. among tuples tied at the maximum confidence, the earliest
in the original list order wins (the reverse, stable ascending sort and
take-last of the code compose to exactly this selection). -/
theorem best_result_first_of_max :
    (∀ α : Type, best_result ([] : List (ℚ × α)) = none) ∧
    (best_result [((0.6 : ℚ), "x"), (0.9, "y"), (0.9, "z")] = some (0.9, "y")) ∧
    (∀ (α : Type) (l : List (ℚ × α)), l ≠ [] →
      ∃ e l₁ l₂, best_result l = some e ∧ l = l₁ ++ e :: l₂ ∧
        (∀ p ∈ l, p.1 ≤ e.1) ∧ (∀ p ∈ l₁, p.1 < e.1)) := by
  refine ⟨fun α => rfl, ?_, ?_⟩
  · simp only [best_result, List.length, List.reverse, List.insertionSort,
      List.orderedInsert]
    norm_num [List.insertionSort, List.orderedInsert, confLE]
  · intro α l hl
    have hrev : l.reverse ≠ [] := by
      intro hc
      exact hl (by simpa using congrArg List.reverse hc)
    obtain ⟨m, hm⟩ : ∃ m, lastMax l.reverse = some m := by
      cases hrev' : l.reverse with
      | nil => exact absurd hrev' hrev
      | cons a t =>
          cases hlm : lastMax (a :: t) with
          | none => exact absurd hlm (lastMax_cons_ne_none a t)
          | some m => exact ⟨m, rfl⟩
    have hbr : best_result l = some m := by
      have hlen : ¬ l.length = 0 := by
        simpa [List.length_eq_zero] using hl
      simp only [best_result, if_neg hlen]
      rw [getLast?_insertionSort, hm]
    obtain ⟨r₁, r₂, hsplit, hr₂⟩ := lastMax_split hm
    refine ⟨m, r₂.reverse, r₁.reverse, hbr, ?_, ?_, ?_⟩
    · have : l.reverse.reverse = (r₁ ++ m :: r₂).reverse := congrArg List.reverse hsplit
      simpa [List.reverse_append] using this
    · intro p hp
      exact lastMax_max hm p (List.mem_reverse.mpr hp)
    · intro p hp
      exact hr₂ p (List.mem_reverse.mp hp)

/-- Closed witness for `best_result_first_of_max`: the earliest-maximum
characterisation instantiated on the singleton `[(1, "a")]`. -/
theorem best_result_first_of_max_witness :
    ∃ (e : ℚ × String) (l₁ l₂ : List (ℚ × String)), best_result [((1 : ℚ), "a")] = some e ∧
      [((1 : ℚ), "a")] = l₁ ++ e :: l₂ ∧
      (∀ p ∈ [((1 : ℚ), "a")], p.1 ≤ e.1) ∧ (∀ p ∈ l₁, p.1 < e.1) :=
  best_result_first_of_max.2.2 String [((1 : ℚ), "a")] (by simp)
